import Mathlib

/-!
Shallow embedding of the role-based project-management backend
(`src/main.py`, schemas in `src/schemas.py`).

The document store is modelled as an explicit `Store` record holding the
collections the core touches (roles, users, projects, parts, notifications).
Mongo ObjectIds are modelled as plain strings; `find_one`/`update_one` by
`_id` become first-match lookup/update by the `id` field.  Python floats are
modelled as exact rationals (`Rat`).  datetimes relevant to the insight rules
are modelled as `Int` second counts; `now` is passed explicitly.  Each
endpoint that can raise an HTTPException is modelled as a state-passing
function returning `Except Err α × Store`, so that a failure that happens
after a write would be visible in the returned store.
-/

namespace PM

/-- Error kinds surfaced by the endpoints (HTTP 404 / 400 details). -/
inductive Err where
  | NotFound
  | CapacityExceeded
  | InvalidStatus
deriving DecidableEq, Repr

/-- Record of the `role` collection (schemas.py `Role`). -/
structure Role where
  name : String
  max_capacity : Option Int
deriving DecidableEq, Repr

/-- Record of the `user` collection (schemas.py `User`); `id` models `str(_id)`.
`capacity` is `Option` because the raw document field may be absent/null. -/
structure User where
  id : String
  name : String
  email : String
  role : String
  capacity : Option Int
deriving DecidableEq, Repr

/-- Record of the `project` collection (schemas.py `Project`), restricted to the
fields the core reads or writes. -/
structure Project where
  id : String
  title : String
  progress : Rat
deriving DecidableEq, Repr

/-- Record of the `part` collection (schemas.py `Part`), restricted to the fields
the core reads or writes. `deadline` is a second count. -/
structure Part where
  id : String
  project_id : String
  title : String
  assigned_user_id : Option String
  deadline : Option Int
  status : String
deriving DecidableEq, Repr

/-- Record of the `notification` collection (fields written by `assign_part`). -/
structure Notification where
  user_id : String
  type : String
  title : String
  body : String
deriving DecidableEq, Repr

/-- The document store: the collections the modelled endpoints touch. -/
structure Store where
  roles : List Role
  users : List User
  projects : List Project
  parts : List Part
  notifications : List Notification
deriving DecidableEq, Repr

/-- Request body of POST /parts (main.py `CreatePartRequest`). -/
structure CreatePartRequest where
  project_id : String
  title : String
  assigned_user_id : Option String
  deadline : Option Int
deriving DecidableEq, Repr

/-- Request body of POST /parts/assign (main.py `AssignPartRequest`). -/
structure AssignPartRequest where
  part_id : String
  user_id : String
deriving DecidableEq, Repr

/-- The statuses counting as active load (main.py line 69). -/
def activeStatuses : List String := ["assigned", "in_progress", "review"]

/-- The admissible part statuses (main.py line 224). -/
def allowedStatuses : List String :=
  ["assigned", "in_progress", "review", "completed", "blocked"]

/-- Python truthiness of an optional string (`if assigned:` / `if uid:`):
`None` and the empty string are falsy. -/
def truthy : Option String → Bool
  | none => false
  | some s => s ≠ ""

/-- Models `find_one('user', ...)` by `_id`. -/
def find_user (s : Store) (user_id : String) : Option User :=
  s.users.find? (fun u => u.id == user_id)

/-- Models `find_one('role', ...)` by role name. -/
def find_role (s : Store) (name : String) : Option Role :=
  s.roles.find? (fun r => r.name == name)

/-- Embeds main.py `current_active_parts_count` (lines 66-70): count of parts
assigned to `user_id` whose status is in `activeStatuses`. -/
def current_active_parts_count (s : Store) (user_id : String) : Nat :=
  (s.parts.filter (fun p =>
    p.assigned_user_id == some user_id && activeStatuses.contains p.status)).length

/-- Embeds main.py `get_user_capacity` (lines 73-84): 404 if the user is absent;
else the user's `capacity` if set, else the role's `max_capacity` if the
role exists and has one, else 0. -/
def get_user_capacity (s : Store) (user_id : String) : Except Err Int :=
  match find_user s user_id with
  | none => .error .NotFound
  | some u =>
    match u.capacity with
    | none =>
      match find_role s u.role with
      | some role =>
        match role.max_capacity with
        | some m => .ok m
        | none => .ok 0
      | none => .ok 0
    | some cap => .ok cap

/-- Semantics of `update_one` on the `project` collection: update the first
record whose id matches (Mongo `_id` lookups match at most one record). -/
def updateFirstProject (l : List Project) (pid : String) (f : Project → Project) :
    List Project :=
  match l with
  | [] => []
  | pr :: rest =>
    if pr.id == pid then f pr :: rest else pr :: updateFirstProject rest pid f

/-- Semantics of `update_one` on the `part` collection. -/
def updateFirstPart (l : List Part) (pid : String) (f : Part → Part) :
    List Part :=
  match l with
  | [] => []
  | p :: rest =>
    if p.id == pid then f p :: rest else p :: updateFirstPart rest pid f

/-- Embeds main.py `recompute_project_progress` (lines 87-96): load the project's
parts; 0.0 when none, else `(done / total) * 100.0`; persist onto the
project record; return the value. -/
def recompute_project_progress (s : Store) (project_id : String) : Rat × Store :=
  let parts := s.parts.filter (fun p => p.project_id == project_id)
  let progress : Rat :=
    if parts.isEmpty then 0
    else (((parts.filter (fun p => p.status == "completed")).length : Rat)
            / (parts.length : Rat)) * 100
  let newProjects :=
    updateFirstProject s.projects project_id
      (fun pr => { pr with progress := progress })
  (progress, { s with projects := newProjects })

/-- The part record `create_part` persists (main.py lines 175-178), with the
literal `'assigned' if assigned else 'assigned'` status expression. -/
def newPartRecord (payload : CreatePartRequest) (newId : String) : Part :=
  { id := newId
    project_id := payload.project_id
    title := payload.title
    assigned_user_id := payload.assigned_user_id
    deadline := payload.deadline
    status := if truthy payload.assigned_user_id then "assigned" else "assigned" }

/-- The unguarded tail of `create_part`: persist the part, recompute the
project's progress, return the new id. -/
def createPartRecord (s : Store) (payload : CreatePartRequest) (newId : String) :
    Except Err String × Store :=
  let s1 : Store := { s with parts := s.parts ++ [newPartRecord payload newId] }
  (.ok newId, (recompute_project_progress s1 payload.project_id).2)

/-- Embeds main.py `create_part` (lines 166-181): when a truthy assignee is given,
reject with CapacityExceeded if `active >= capacity` (404 if the assignee
does not exist); otherwise persist the part and recompute progress.  The
store-generated id is passed in as `newId`. -/
def create_part (s : Store) (payload : CreatePartRequest) (newId : String) :
    Except Err String × Store :=
  if truthy payload.assigned_user_id then
    match payload.assigned_user_id with
    | some uid =>
      match get_user_capacity s uid with
      | .error e => (.error e, s)
      | .ok cap =>
        if (current_active_parts_count s uid : Int) ≥ cap then
          (.error .CapacityExceeded, s)
        else createPartRecord s payload newId
    | none => createPartRecord s payload newId
  else createPartRecord s payload newId

/-- Embeds main.py `assign_part` (lines 196-218): resolve capacity (404 if the user
is absent), reject with CapacityExceeded if `active >= capacity`; update the
part (404 when nothing matched); recompute the part's project progress; emit
an `assignment` notification. -/
def assign_part (s : Store) (payload : AssignPartRequest) :
    Except Err Unit × Store :=
  match get_user_capacity s payload.user_id with
  | .error e => (.error e, s)
  | .ok cap =>
    if (current_active_parts_count s payload.user_id : Int) ≥ cap then
      (.error .CapacityExceeded, s)
    else
      let matched := s.parts.any (fun p => p.id == payload.part_id)
      let newParts :=
        updateFirstPart s.parts payload.part_id
          (fun p => { p with assigned_user_id := some payload.user_id, status := "assigned" })
      let s1 : Store := { s with parts := newParts }
      if !matched then (.error .NotFound, s1)
      else
        let s2 : Store :=
          match s1.parts.find? (fun p => p.id == payload.part_id) with
          | some part => (recompute_project_progress s1 part.project_id).2
          | none => s1
        let note : Notification :=
          { user_id := payload.user_id
            type := "assignment"
            title := "New assignment"
            body := "You were assigned to part " ++ payload.part_id }
        (.ok (), { s2 with notifications := s2.notifications ++ [note] })

/-- Embeds main.py `update_part_status` (lines 221-233): reject a status outside
`allowedStatuses` with InvalidStatus before any write; update the part (404
when nothing matched); recompute the part's project progress. -/
def update_part_status (s : Store) (part_id status : String) :
    Except Err Unit × Store :=
  if !allowedStatuses.contains status then (.error .InvalidStatus, s)
  else
    let matched := s.parts.any (fun p => p.id == part_id)
    let newParts := updateFirstPart s.parts part_id (fun p => { p with status := status })
    let s1 : Store := { s with parts := newParts }
    if !matched then (.error .NotFound, s1)
    else
      match s1.parts.find? (fun p => p.id == part_id) with
      | some part => (.ok (), (recompute_project_progress s1 part.project_id).2)
      | none => (.ok (), s1)

/-- An element of the `overloaded` list of `system_insights`. -/
structure OverloadEntry where
  user_id : String
  active : Nat
  capacity : Int
deriving DecidableEq, Repr

/-- The response of GET /insights/system. -/
structure SystemInsights where
  summary : String
  overloaded : List OverloadEntry
  approaching : List String
deriving DecidableEq, Repr

/-- Per-user counts (`by_user`) of `system_insights` (lines 263-267),
looked up with default 0: the number of fetched active-status parts whose
`assigned_user_id` is truthy and equals `uid`. -/
def insights_by_user_count (activeParts : List Part) (uid : String) : Nat :=
  (activeParts.filter (fun p =>
    p.assigned_user_id == some uid && uid ≠ "")).length

/-- Embeds main.py `system_insights` (lines 259-286): fetch all users and the parts
with active status; `approaching` collects ids of fetched parts with a set
deadline within 48h (172800 s) of `now` and status other than `completed`;
`overloaded` collects users whose active count strictly exceeds their raw
stored capacity (`u.get('capacity') or 0`, which for integers is `getD 0`);
`summary` formats the three counts. -/
def system_insights (s : Store) (now : Int) : SystemInsights :=
  let parts := s.parts.filter (fun p => activeStatuses.contains p.status)
  let approaching := (parts.filter (fun p =>
      match p.deadline with
      | some dl => dl - now < 172800 && p.status ≠ "completed"
      | none => false)).map (fun p => p.id)
  let overloaded := (s.users.filter (fun u =>
      (insights_by_user_count parts u.id : Int) > u.capacity.getD 0)).map
    (fun u =>
      { user_id := u.id
        active := insights_by_user_count parts u.id
        capacity := u.capacity.getD 0 })
  { summary := "Active parts: " ++ toString parts.length ++
      ". Approaching deadlines: " ++ toString approaching.length ++
      ". Overloaded users: " ++ toString overloaded.length ++ "."
    overloaded := overloaded
    approaching := approaching }

/-- The spec formula for project progress (spec §3, §4.4):
`100 * (completed count) / (total count)`, or 0 when the project has no
parts. -/
def project_progress_formula (s : Store) (project_id : String) : Rat :=
  let parts := s.parts.filter (fun p => p.project_id == project_id)
  if parts.isEmpty then 0
  else 100 * ((parts.filter (fun p => p.status == "completed")).length : Rat)
         / (parts.length : Rat)

/-- The stored progress of every project record found under `project_id`
agrees with the spec formula evaluated on the same store. -/
def storedProgressMatches (s : Store) (project_id : String) : Prop :=
  ∀ pr, s.projects.find? (fun q => q.id == project_id) = some pr →
    pr.progress = project_progress_formula s project_id

/-! Concrete stores used to instantiate theorems with hypotheses. -/

/-- A user whose capacity resolves through the role fallback. -/
def wUserFallback : User :=
  { id := "u1", name := "n", email := "e", role := "worker", capacity := none }

/-- A role carrying a default capacity. -/
def wRoleWorker : Role := { name := "worker", max_capacity := some 5 }

/-- Store exercising the role-fallback path of capacity resolution. -/
def wStoreC3 : Store :=
  { roles := [wRoleWorker], users := [wUserFallback], projects := [],
    parts := [], notifications := [] }

/-- A user with explicit capacity 0 (at capacity with no work). -/
def wUserCap0 : User :=
  { id := "u1", name := "n", email := "e", role := "worker", capacity := some 0 }

/-- Store with a single zero-capacity user and no parts. -/
def wStoreCap0 : Store :=
  { roles := [], users := [wUserCap0], projects := [], parts := [],
    notifications := [] }

/-- Decidable equality for endpoint results. -/
instance exceptDecEq {ε α : Type} [DecidableEq ε] [DecidableEq α] :
    DecidableEq (Except ε α) := fun a b =>
  match a, b with
  | .error e1, .error e2 =>
    if h : e1 = e2 then .isTrue (by rw [h]) else .isFalse (by simp [h])
  | .error _, .ok _ => .isFalse (by simp)
  | .ok _, .error _ => .isFalse (by simp)
  | .ok v1, .ok v2 =>
    if h : v1 = v2 then .isTrue (by rw [h]) else .isFalse (by simp [h])

/-- A user with explicit capacity 1 and no assigned work. -/
def wUserCap1 : User :=
  { id := "u1", name := "n", email := "e", role := "worker", capacity := some 1 }

/-- Store with a single under-capacity user and no parts. -/
def wStoreCap1 : Store :=
  { roles := [], users := [wUserCap1], projects := [], parts := [],
    notifications := [] }

/-- A user with explicit capacity 2. -/
def wUserCap2 : User :=
  { id := "u2", name := "n", email := "e", role := "worker", capacity := some 2 }

/-- An unassigned part of project "pr". -/
def wPart1 : Part :=
  { id := "p1", project_id := "pr", title := "a", assigned_user_id := none,
    deadline := none, status := "assigned" }

/-- A project record for "pr" with a stale progress value. -/
def wProjectPr : Project := { id := "pr", title := "t", progress := 37 }

/-- Store with one under-capacity user, one project and one part. -/
def wStoreMain : Store :=
  { roles := [], users := [wUserCap2], projects := [wProjectPr],
    parts := [wPart1], notifications := [] }

/-- A user whose stored capacity field is 0. -/
def wUserRaw0 : User :=
  { id := "u1", name := "n", email := "e", role := "worker", capacity := some 0 }

/-- An active part assigned to user "u1". -/
def wPartActiveU1 : Part :=
  { id := "p1", project_id := "pr", title := "a",
    assigned_user_id := some "u1", deadline := none, status := "in_progress" }

/-- Store in which user "u1" carries more active work than raw capacity. -/
def wStoreOverload : Store :=
  { roles := [], users := [wUserRaw0], projects := [], parts := [wPartActiveU1],
    notifications := [] }

/-- A blocked part with an imminent deadline. -/
def cexPartBlocked : Part :=
  { id := "pb", project_id := "pr", title := "b", assigned_user_id := none,
    deadline := some 1000, status := "blocked" }

/-- Store holding only the blocked imminent-deadline part. -/
def cexStoreBlocked : Store :=
  { roles := [], users := [], projects := [], parts := [cexPartBlocked],
    notifications := [] }

/-- A part-creation request naming a project id that matches no record. -/
def wGhostPayload : CreatePartRequest :=
  { project_id := "ghost", title := "t", assigned_user_id := none,
    deadline := none }

/-- The empty store. -/
def emptyStore : Store :=
  { roles := [], users := [], projects := [], parts := [], notifications := [] }

/-- State of `wPart1` after its status is set to "completed". -/
def wPart1Completed : Part :=
  { id := "p1", project_id := "pr", title := "a", assigned_user_id := none,
    deadline := none, status := "completed" }

/-- The project record "pr" with fully recomputed progress. -/
def wProjectPr100 : Project := { id := "pr", title := "t", progress := 100 }

/-- State of `wStoreMain` after completing part "p1" and recomputing progress. -/
def wStoreMainCompleted : Store :=
  { roles := [], users := [wUserCap2], projects := [wProjectPr100],
    parts := [wPart1Completed], notifications := [] }

/-- The part persisted for `wGhostPayload` under id "p1". -/
def wGhostPart : Part :=
  { id := "p1", project_id := "ghost", title := "t", assigned_user_id := none,
    deadline := none, status := "assigned" }

/-- The store after creating `wGhostPayload`'s part in the empty store. -/
def ghostResultStore : Store :=
  { roles := [], users := [], projects := [], parts := [wGhostPart],
    notifications := [] }

/-! Helper lemmas about the update-one and recompute primitives. -/

theorem updateFirstPart_find_eq (l : List Part) (pid : String) (f : Part → Part)
    (hf : ∀ p, (f p).id = p.id) :
    (updateFirstPart l pid f).find? (fun p => p.id == pid) =
      (l.find? (fun p => p.id == pid)).map f := by
  induction l with
  | nil => rfl
  | cons p rest ih =>
    simp only [updateFirstPart]
    cases hb : (p.id == pid) with
    | true =>
      rw [if_pos rfl]
      have hfp : ((f p).id == pid) = true := by rw [hf]; exact hb
      simp [List.find?, hfp, hb]
    | false =>
      rw [if_neg (by simp)]
      simp [List.find?, hb, ih]

theorem updateFirstProject_find_eq (l : List Project) (pid : String)
    (f : Project → Project) (hf : ∀ pr, (f pr).id = pr.id) :
    (updateFirstProject l pid f).find? (fun q => q.id == pid) =
      (l.find? (fun q => q.id == pid)).map f := by
  induction l with
  | nil => rfl
  | cons pr rest ih =>
    simp only [updateFirstProject]
    cases hb : (pr.id == pid) with
    | true =>
      rw [if_pos rfl]
      have hfp : ((f pr).id == pid) = true := by rw [hf]; exact hb
      simp [List.find?, hfp, hb]
    | false =>
      rw [if_neg (by simp)]
      simp [List.find?, hb, ih]

theorem updateFirstProject_no_match (l : List Project) (pid : String)
    (f : Project → Project) (h : ∀ pr ∈ l, pr.id ≠ pid) :
    updateFirstProject l pid f = l := by
  induction l with
  | nil => rfl
  | cons pr rest ih =>
    have hq : (pr.id == pid) = false := by
      have := h pr (List.mem_cons_self pr rest)
      simpa using this
    simp only [updateFirstProject]
    rw [if_neg (by simp [hq]), ih (fun q hq2 => h q (List.mem_cons_of_mem pr hq2))]

theorem recompute_parts_eq (s : Store) (pid : String) :
    ((recompute_project_progress s pid).2).parts = s.parts := rfl

theorem formula_only_reads_parts (sa sb : Store) (pid : String)
    (h : sa.parts = sb.parts) :
    project_progress_formula sa pid = project_progress_formula sb pid := by
  unfold project_progress_formula
  rw [h]

theorem recompute_fst_eq_formula (s : Store) (pid : String) :
    (recompute_project_progress s pid).1 = project_progress_formula s pid := by
  unfold recompute_project_progress project_progress_formula
  by_cases h : (s.parts.filter (fun p => p.project_id == pid)).isEmpty
  · simp [h]
  · simp only [h, if_false]
    ring_nf

theorem storedProgressMatches_congr (sa sb : Store) (pid : String)
    (hparts : sa.parts = sb.parts) (hproj : sa.projects = sb.projects)
    (h : storedProgressMatches sa pid) : storedProgressMatches sb pid := by
  intro pr hpr
  rw [← hproj] at hpr
  rw [h pr hpr]
  exact formula_only_reads_parts sa sb pid hparts

theorem recompute_matches (s : Store) (pid : String) :
    storedProgressMatches (recompute_project_progress s pid).2 pid := by
  intro pr hpr
  have hre : (recompute_project_progress s pid).2.projects =
      updateFirstProject s.projects pid
        (fun q => { q with progress := (recompute_project_progress s pid).1 }) := rfl
  rw [hre, updateFirstProject_find_eq s.projects pid
      (fun q => { q with progress := (recompute_project_progress s pid).1 })
      (fun q => rfl)] at hpr
  match hfind : s.projects.find? (fun q => q.id == pid) with
  | none => rw [hfind] at hpr; exact absurd hpr (by simp)
  | some pr0 =>
    rw [hfind] at hpr
    have : pr = { pr0 with progress := (recompute_project_progress s pid).1 } := by
      simpa using hpr.symm
    rw [this]
    show (recompute_project_progress s pid).1 =
      project_progress_formula (recompute_project_progress s pid).2 pid
    rw [recompute_fst_eq_formula]
    exact formula_only_reads_parts s _ pid (recompute_parts_eq s pid).symm

end PM

namespace PM

/-- C3: For every user id resolving to an existing user, `get_user_capacity`
returns the user's explicit capacity when set; otherwise the role's
`max_capacity` when the role exists and carries one; otherwise 0.  For an id
resolving to no user it fails with NotFound. -/
theorem get_user_capacity_resolution (s : Store) (user_id : String) :
    (find_user s user_id = none →
      get_user_capacity s user_id = .error .NotFound) ∧
    (∀ u, find_user s user_id = some u →
      (∀ c, u.capacity = some c → get_user_capacity s user_id = .ok c) ∧
      (u.capacity = none →
        (∀ r m, find_role s u.role = some r → r.max_capacity = some m →
          get_user_capacity s user_id = .ok m) ∧
        (∀ r, find_role s u.role = some r → r.max_capacity = none →
          get_user_capacity s user_id = .ok 0) ∧
        (find_role s u.role = none → get_user_capacity s user_id = .ok 0))) := by
  refine ⟨?_, ?_⟩
  · intro h
    simp only [get_user_capacity, h]
  · intro u hu
    refine ⟨?_, ?_⟩
    · intro c hc
      simp only [get_user_capacity, hu, hc]
    · intro hc
      refine ⟨?_, ?_, ?_⟩
      · intro r m hr hm
        simp only [get_user_capacity, hu, hc, hr, hm]
      · intro r hr hm
        simp only [get_user_capacity, hu, hc, hr, hm]
      · intro hr
        simp only [get_user_capacity, hu, hc, hr]

/-- Witness for C3: a user with no explicit capacity resolves through the
role default of 5. -/
theorem get_user_capacity_resolution_applied :
    get_user_capacity wStoreC3 "u1" = .ok 5 :=
  (((get_user_capacity_resolution wStoreC3 "u1").2 wUserFallback rfl).2
    rfl).1 wRoleWorker 5 rfl rfl

/-- C4: creating a part with a (truthy) initial assignee whose active count
is at or above their resolved capacity fails with CapacityExceeded and
leaves the store unchanged. -/
theorem create_part_rejects_at_capacity (s : Store) (payload : CreatePartRequest)
    (newId uid : String) (cap : Int)
    (ha : payload.assigned_user_id = some uid) (hne : uid ≠ "")
    (hcap : get_user_capacity s uid = .ok cap)
    (hover : (current_active_parts_count s uid : Int) ≥ cap) :
    create_part s payload newId = (.error .CapacityExceeded, s) := by
  have ht : truthy (some uid) = true := by
    unfold truthy
    exact decide_eq_true hne
  unfold create_part
  rw [ha]
  rw [if_pos ht]
  show (match get_user_capacity s uid with
    | .error e => ((.error e : Except Err String), s)
    | .ok cap =>
      if (current_active_parts_count s uid : Int) ≥ cap then
        (.error .CapacityExceeded, s)
      else createPartRecord s payload newId) = (.error .CapacityExceeded, s)
  rw [hcap]
  show (if (current_active_parts_count s uid : Int) ≥ cap then
      ((.error .CapacityExceeded : Except Err String), s)
    else createPartRecord s payload newId) = (.error .CapacityExceeded, s)
  rw [if_pos hover]

/-- Witness for C4: a zero-capacity assignee is rejected at part creation and
the store is returned unchanged. -/
theorem create_part_rejects_at_capacity_applied :
    create_part wStoreCap0
      { project_id := "pr", title := "t", assigned_user_id := some "u1",
        deadline := none } "p9" = (.error .CapacityExceeded, wStoreCap0) :=
  create_part_rejects_at_capacity wStoreCap0
    { project_id := "pr", title := "t", assigned_user_id := some "u1",
      deadline := none } "p9" "u1" 0 rfl (by decide) rfl (by decide)

/-- C5: a status outside the allowed set is rejected with InvalidStatus and
the store (part statuses, timestamps, project progress) is unchanged. -/
theorem update_part_status_invalid_no_mutation (s : Store)
    (part_id status : String) (h : status ∉ allowedStatuses) :
    update_part_status s part_id status = (.error .InvalidStatus, s) := by
  have hc : allowedStatuses.contains status = false := by
    simpa using h
  unfold update_part_status
  rw [hc]
  rfl

/-- Witness for C5: status "archived" is not admissible. -/
theorem update_part_status_invalid_applied :
    update_part_status wStoreMain "p1" "archived" =
      (.error .InvalidStatus, wStoreMain) :=
  update_part_status_invalid_no_mutation wStoreMain "p1" "archived" (by decide)

end PM

namespace PM

theorem create_part_ok_cases (s : Store) (payload : CreatePartRequest)
    (newId r : String) (s' : Store)
    (h : create_part s payload newId = (.ok r, s')) :
    r = newId ∧
    s' = (recompute_project_progress
        { s with parts := s.parts ++ [newPartRecord payload newId] }
        payload.project_id).2 := by
  have hrec : ∀ (hx : createPartRecord s payload newId = (.ok r, s')),
      r = newId ∧ s' = (recompute_project_progress
        { s with parts := s.parts ++ [newPartRecord payload newId] }
        payload.project_id).2 := by
    intro hx
    unfold createPartRecord at hx
    simp only [Prod.mk.injEq, Except.ok.injEq] at hx
    exact ⟨hx.1.symm, hx.2.symm⟩
  unfold create_part at h
  split at h
  · split at h
    · rename_i uid
      split at h
      · exact absurd h (by simp)
      · split at h
        · exact absurd h (by simp)
        · exact hrec h
    · exact hrec h
  · exact hrec h

end PM

namespace PM

/-- C9: every successfully created part is persisted with initial status
"assigned" (the source writes `'assigned' if assigned else 'assigned'`),
whether or not an assignee was supplied, and it counts in its project's
progress denominator. -/
theorem create_part_initial_status_assigned (s : Store)
    (payload : CreatePartRequest) (newId r : String) (s' : Store)
    (h : create_part s payload newId = (.ok r, s')) :
    ∃ p ∈ s'.parts, p.id = newId ∧ p.status = "assigned" ∧
      p.project_id = payload.project_id ∧
      0 < (s'.parts.filter (fun q => q.project_id == payload.project_id)).length := by
  obtain ⟨-, hs⟩ := create_part_ok_cases s payload newId r s' h
  subst hs
  have hparts : (recompute_project_progress
      { s with parts := s.parts ++ [newPartRecord payload newId] }
      payload.project_id).2.parts = s.parts ++ [newPartRecord payload newId] := rfl
  have hmem : newPartRecord payload newId ∈
      (recompute_project_progress
        { s with parts := s.parts ++ [newPartRecord payload newId] }
        payload.project_id).2.parts := by
    rw [hparts]
    exact List.mem_append_right _ (List.mem_singleton_self _)
  refine ⟨newPartRecord payload newId, hmem, rfl, ?_, rfl, ?_⟩
  · simp [newPartRecord]
  · apply List.length_pos.mpr
    apply List.ne_nil_of_mem
    refine List.mem_filter.mpr ⟨hmem, ?_⟩
    simp [newPartRecord]

/-- Witness for C9: creating an unassigned part in the empty store persists
it with status "assigned". -/
theorem create_part_initial_status_assigned_applied :
    ∃ p ∈ ghostResultStore.parts, p.id = "p1" ∧ p.status = "assigned" ∧
      p.project_id = wGhostPayload.project_id ∧
      0 < (ghostResultStore.parts.filter
        (fun q => q.project_id == wGhostPayload.project_id)).length :=
  create_part_initial_status_assigned emptyStore wGhostPayload "p1" "p1"
    ghostResultStore rfl

end PM

namespace PM

/-- C10: `create_part` performs no existence check on the project: when the
project id matches no record (and any truthy assignee is under capacity),
the part is still persisted, the call reports success, and the progress
write matches no project record (projects unchanged). -/
theorem create_part_missing_project_succeeds (s : Store)
    (payload : CreatePartRequest) (newId : String)
    (hproj : ∀ pr ∈ s.projects, pr.id ≠ payload.project_id)
    (hok : ∀ uid, payload.assigned_user_id = some uid → uid ≠ "" →
      ∃ cap, get_user_capacity s uid = .ok cap ∧
        (current_active_parts_count s uid : Int) < cap) :
    ∃ s', create_part s payload newId = (.ok newId, s') ∧
      s'.projects = s.projects ∧
      ∃ p ∈ s'.parts, p.id = newId ∧ p.project_id = payload.project_id := by
  have htail : ∀ s2, createPartRecord s payload newId = (.ok newId, s2) →
      s2.projects = s.projects ∧
      ∃ p ∈ s2.parts, p.id = newId ∧ p.project_id = payload.project_id := by
    intro s2 h2
    unfold createPartRecord at h2
    simp only [Prod.mk.injEq, Except.ok.injEq] at h2
    have hs2 := h2.2
    subst hs2
    constructor
    · show updateFirstProject s.projects payload.project_id _ = s.projects
      exact updateFirstProject_no_match _ _ _ hproj
    · refine ⟨newPartRecord payload newId, ?_, rfl, rfl⟩
      show newPartRecord payload newId ∈ s.parts ++ [newPartRecord payload newId]
      exact List.mem_append_right _ (List.mem_singleton_self _)
  have hgo : create_part s payload newId = createPartRecord s payload newId := by
    unfold create_part
    match hUid : payload.assigned_user_id with
    | none => rfl
    | some uid =>
      by_cases hne : uid = ""
      · subst hne
        rfl
      · obtain ⟨cap, hcap, hlt⟩ := hok uid hUid hne
        have ht : truthy (some uid) = true := by
          unfold truthy
          exact decide_eq_true hne
        rw [if_pos ht]
        show (match get_user_capacity s uid with
          | .error e => ((.error e : Except Err String), s)
          | .ok cap =>
            if (current_active_parts_count s uid : Int) ≥ cap then
              (.error .CapacityExceeded, s)
            else createPartRecord s payload newId) = createPartRecord s payload newId
        rw [hcap]
        exact if_neg (not_le.mpr hlt)
  refine ⟨(createPartRecord s payload newId).2, ?_, ?_, ?_⟩
  · rw [hgo]
    rfl
  · exact (htail _ rfl).1
  · exact (htail _ rfl).2

/-- Witness for C10: creating a part for the absent project "ghost" in the
empty store succeeds and writes progress to no project record. -/
theorem create_part_missing_project_succeeds_applied :
    ∃ s', create_part emptyStore wGhostPayload "p1" = (.ok "p1", s') ∧
      s'.projects = emptyStore.projects ∧
      ∃ p ∈ s'.parts, p.id = "p1" ∧ p.project_id = wGhostPayload.project_id :=
  create_part_missing_project_succeeds emptyStore wGhostPayload "p1"
    (by intro pr hpr; exact absurd hpr (by simp [emptyStore]))
    (by intro uid huid; exact absurd huid (by simp [wGhostPayload]))

end PM

namespace PM

/-- C2: after every successful part creation, part (re)assignment and part
status change, the affected project's stored progress equals
`100 * completed / total` over its parts (0 when it has none). -/
theorem progress_recomputed_after_mutations (s : Store) :
    (∀ payload newId r s', create_part s payload newId = (.ok r, s') →
      storedProgressMatches s' payload.project_id) ∧
    (∀ req s', assign_part s req = (.ok (), s') →
      ∀ p0, s.parts.find? (fun q => q.id == req.part_id) = some p0 →
        storedProgressMatches s' p0.project_id) ∧
    (∀ part_id status s', update_part_status s part_id status = (.ok (), s') →
      ∀ p0, s.parts.find? (fun q => q.id == part_id) = some p0 →
        storedProgressMatches s' p0.project_id) := by
  refine ⟨?_, ?_, ?_⟩
  · intro payload newId r s' h
    obtain ⟨-, hs⟩ := create_part_ok_cases s payload newId r s' h
    subst hs
    exact recompute_matches _ _
  · intro req s' h p0 hp0
    simp only [assign_part] at h
    split at h
    · exact absurd h (by simp)
    · split at h
      · exact absurd h (by simp)
      · split at h
        · exact absurd h (by simp)
        · have hup : (updateFirstPart s.parts req.part_id
              (fun p => { p with assigned_user_id := some req.user_id,
                                 status := "assigned" })).find?
                (fun p => p.id == req.part_id) =
              some { p0 with assigned_user_id := some req.user_id,
                             status := "assigned" } := by
            rw [updateFirstPart_find_eq s.parts req.part_id
              (fun p => { p with assigned_user_id := some req.user_id,
                                 status := "assigned" }) (fun p => rfl), hp0]
            rfl
          simp only [hup, Prod.mk.injEq] at h
          obtain ⟨-, h⟩ := h
          subst h
          exact storedProgressMatches_congr _ _ _ rfl rfl
            (recompute_matches _ _)
  · intro part_id status s' h p0 hp0
    simp only [update_part_status] at h
    split at h
    · exact absurd h (by simp)
    · split at h
      · exact absurd h (by simp)
      · have hup : (updateFirstPart s.parts part_id
              (fun p => { p with status := status })).find?
                (fun p => p.id == part_id) =
              some { p0 with status := status } := by
          rw [updateFirstPart_find_eq s.parts part_id
            (fun p => { p with status := status }) (fun p => rfl), hp0]
          rfl
        simp only [hup, Prod.mk.injEq] at h
        obtain ⟨-, h⟩ := h
        subst h
        exact recompute_matches _ _

/-- Witness for C2: completing the only part of project "pr" stores
progress equal to the formula value (100). -/
theorem progress_recomputed_after_mutations_applied :
    wProjectPr100.progress = project_progress_formula wStoreMainCompleted "pr" :=
  ((progress_recomputed_after_mutations wStoreMain).2.2 "p1" "completed"
    wStoreMainCompleted
    (by
      simp only [update_part_status, wStoreMain, wPart1, wUserCap2, wProjectPr,
        wStoreMainCompleted, wPart1Completed, wProjectPr100, allowedStatuses,
        updateFirstPart, updateFirstProject, recompute_project_progress,
        List.find?, List.filter, List.any, List.contains, List.elem]
      norm_num
      decide)
    wPart1 rfl) wProjectPr100 rfl

end PM

namespace PM

theorem assign_part_user_missing (s : Store) (req : AssignPartRequest)
    (h : get_user_capacity s req.user_id = .error .NotFound) :
    assign_part s req = (.error .NotFound, s) := by
  simp only [assign_part, h]

theorem assign_part_at_capacity (s : Store) (req : AssignPartRequest) (cap : Int)
    (hcap : get_user_capacity s req.user_id = .ok cap)
    (hge : (current_active_parts_count s req.user_id : Int) ≥ cap) :
    assign_part s req = (.error .CapacityExceeded, s) := by
  simp only [assign_part, hcap]
  rw [if_pos hge]

theorem assign_part_under_capacity_found (s : Store) (req : AssignPartRequest)
    (cap : Int) (p : Part)
    (hcap : get_user_capacity s req.user_id = .ok cap)
    (hlt : (current_active_parts_count s req.user_id : Int) < cap)
    (hp : s.parts.find? (fun q => q.id == req.part_id) = some p) :
    ∃ s', assign_part s req = (.ok (), s') := by
  have hm : (s.parts.any (fun q => q.id == req.part_id)) = true := by
    rw [List.any_eq_true]
    have hpt := List.find?_some hp
    exact ⟨p, List.mem_of_find?_eq_some hp, hpt⟩
  have hup : (updateFirstPart s.parts req.part_id
      (fun q => { q with assigned_user_id := some req.user_id,
                         status := "assigned" })).find?
        (fun q => q.id == req.part_id) =
      some { p with assigned_user_id := some req.user_id,
                    status := "assigned" } := by
    rw [updateFirstPart_find_eq s.parts req.part_id
      (fun q => { q with assigned_user_id := some req.user_id,
                         status := "assigned" })
      (fun q => rfl), hp]
    rfl
  simp only [assign_part, hcap]
  rw [if_neg (not_le.mpr hlt)]
  simp only [hm, Bool.not_true, if_false, hup]
  exact ⟨_, rfl⟩

theorem assign_part_under_capacity_missing (s : Store) (req : AssignPartRequest)
    (cap : Int)
    (hcap : get_user_capacity s req.user_id = .ok cap)
    (hlt : (current_active_parts_count s req.user_id : Int) < cap)
    (hnone : s.parts.find? (fun q => q.id == req.part_id) = none) :
    (assign_part s req).1 = .error .NotFound := by
  have hm : (s.parts.any (fun q => q.id == req.part_id)) = false := by
    rw [List.any_eq_false]
    intro x hx
    have := List.find?_eq_none.mp hnone x hx
    simpa using this
  simp only [assign_part, hcap]
  rw [if_neg (not_le.mpr hlt)]
  simp only [hm, Bool.not_false, if_true]

/-- C1: with the target user existing, `assign_part` always fails with
CapacityExceeded when `active >= capacity` at call time, and always succeeds
when `active < capacity` provided the part exists (failing with NotFound
when it does not); a missing user yields NotFound. -/
theorem assign_part_capacity_dichotomy (s : Store) (req : AssignPartRequest) :
    (get_user_capacity s req.user_id = .error .NotFound →
      assign_part s req = (.error .NotFound, s)) ∧
    (∀ cap, get_user_capacity s req.user_id = .ok cap →
      ((current_active_parts_count s req.user_id : Int) ≥ cap →
        assign_part s req = (.error .CapacityExceeded, s)) ∧
      ((current_active_parts_count s req.user_id : Int) < cap →
        ((∃ p, s.parts.find? (fun q => q.id == req.part_id) = some p) →
          ∃ s', assign_part s req = (.ok (), s')) ∧
        (s.parts.find? (fun q => q.id == req.part_id) = none →
          (assign_part s req).1 = .error .NotFound))) := by
  refine ⟨assign_part_user_missing s req, ?_⟩
  intro cap hcap
  refine ⟨assign_part_at_capacity s req cap hcap, ?_⟩
  intro hlt
  refine ⟨?_, assign_part_under_capacity_missing s req cap hcap hlt⟩
  rintro ⟨p, hp⟩
  exact assign_part_under_capacity_found s req cap p hcap hlt hp

/-- Witness for C1: an under-capacity user is successfully assigned an
existing part. -/
theorem assign_part_capacity_dichotomy_applied :
    ∃ s', assign_part wStoreMain { part_id := "p1", user_id := "u2" } =
      (.ok (), s') :=
  (((assign_part_capacity_dichotomy wStoreMain
      { part_id := "p1", user_id := "u2" }).2 2 rfl).2
    (by decide)).1 ⟨wPart1, rfl⟩

end PM

namespace PM

/-- C6 counterexample: with user "u1" existing (capacity 0) and part "p1"
absent, `assign_part` fails with CapacityExceeded, not NotFound, because the
capacity guard runs before the part lookup. -/
theorem assign_part_missing_part_not_notfound_cex :
    (find_user wStoreCap0 "u1").isSome = true ∧
    wStoreCap0.parts.find? (fun q => q.id == "p1") = none ∧
    assign_part wStoreCap0 { part_id := "p1", user_id := "u1" } =
      (.error .CapacityExceeded, wStoreCap0) ∧
    (assign_part wStoreCap0 { part_id := "p1", user_id := "u1" }).1 ≠
      .error .NotFound := by
  refine ⟨rfl, rfl, rfl, by decide⟩

/-- C6 (amended): when the part id resolves to no part and the user exists,
`assign_part` fails with NotFound only if the user is strictly under their
resolved capacity; at or above capacity the CapacityExceeded failure takes
precedence, the capacity guard running before the part lookup. -/
theorem assign_part_missing_part_error (s : Store) (req : AssignPartRequest)
    (cap : Int)
    (hcap : get_user_capacity s req.user_id = .ok cap)
    (hpart : s.parts.find? (fun q => q.id == req.part_id) = none) :
    (assign_part s req).1 =
      (if (current_active_parts_count s req.user_id : Int) ≥ cap
        then .error .CapacityExceeded else .error .NotFound) := by
  by_cases hge : (current_active_parts_count s req.user_id : Int) ≥ cap
  · rw [if_pos hge, assign_part_at_capacity s req cap hcap hge]
  · rw [if_neg hge]
    exact assign_part_under_capacity_missing s req cap hcap (not_le.mp hge) hpart

/-- Witness for amended C6: an under-capacity user assigned to a missing
part receives NotFound. -/
theorem assign_part_missing_part_error_applied :
    (assign_part wStoreCap1 { part_id := "p1", user_id := "u1" }).1 =
      (if (current_active_parts_count wStoreCap1 "u1" : Int) ≥ 1
        then .error .CapacityExceeded else .error .NotFound) :=
  assign_part_missing_part_error wStoreCap1
    { part_id := "p1", user_id := "u1" } 1 rfl rfl

end PM

namespace PM

theorem insights_count_eq_active (s : Store) (uid : String) (h : uid ≠ "") :
    insights_by_user_count
        (s.parts.filter (fun p => activeStatuses.contains p.status)) uid =
      current_active_parts_count s uid := by
  unfold insights_by_user_count current_active_parts_count
  rw [List.filter_filter]
  congr 1
  apply List.filter_congr
  intro p _
  simp [h, Bool.and_comm]

/-- C7: the overloaded list of `system_insights` holds exactly the users whose active
part count (statuses assigned/in_progress/review, 0 by default) strictly
exceeds their raw stored capacity field (default 0, no role fallback), each
as a user_id/active/capacity entry.  (User ids are `str(ObjectId)` values
and hence nonempty, captured by the hypothesis.) -/
theorem system_insights_overloaded_iff (s : Store) (now : Int)
    (hids : ∀ u ∈ s.users, u.id ≠ "") (e : OverloadEntry) :
    e ∈ (system_insights s now).overloaded ↔
      ∃ u ∈ s.users, e.user_id = u.id ∧
        e.active = current_active_parts_count s u.id ∧
        e.capacity = u.capacity.getD 0 ∧
        (current_active_parts_count s u.id : Int) > u.capacity.getD 0 := by
  unfold system_insights
  simp only [List.mem_map, List.mem_filter]
  constructor
  · rintro ⟨u, ⟨hu, hcond⟩, he⟩
    have hc := insights_count_eq_active s u.id (hids u hu)
    subst he
    have hgt : (insights_by_user_count
        (s.parts.filter (fun p => activeStatuses.contains p.status)) u.id : Int) >
        u.capacity.getD 0 := by
      exact_mod_cast of_decide_eq_true hcond
    refine ⟨u, hu, rfl, ?_, rfl, ?_⟩
    · simpa using hc
    · rw [← hc]
      exact hgt
  · rintro ⟨u, hu, he1, he2, he3, hgt⟩
    have hc := insights_count_eq_active s u.id (hids u hu)
    refine ⟨u, ⟨hu, ?_⟩, ?_⟩
    · apply decide_eq_true
      rw [hc]
      exact hgt
    · cases e
      simp only at he1 he2 he3
      simp only [OverloadEntry.mk.injEq]
      refine ⟨he1.symm, ?_, he3.symm⟩
      rw [hc]
      exact he2.symm

/-- Witness for C7: a user with raw capacity 0 and one active part appears
in the overloaded list. -/
theorem system_insights_overloaded_iff_applied :
    ({ user_id := "u1", active := 1, capacity := 0 } : OverloadEntry) ∈
      (system_insights wStoreOverload 0).overloaded :=
  (system_insights_overloaded_iff wStoreOverload 0 (by decide)
      { user_id := "u1", active := 1, capacity := 0 }).mpr
    ⟨wUserRaw0, List.mem_cons_self _ _, rfl, rfl, rfl, by decide⟩

end PM

namespace PM

/-- C8 counterexample: the blocked part "pb" has a set deadline 1000 s from
epoch (within 48 h of now = 0) and status ≠ "completed", yet the approaching
list is empty — blocked parts are excluded by the active-status fetch. -/
theorem approaching_excludes_blocked_cex :
    cexPartBlocked ∈ cexStoreBlocked.parts ∧
    cexPartBlocked.deadline = some 1000 ∧
    cexPartBlocked.status ≠ "completed" ∧
    ((1000 : Int) - 0 < 172800) ∧
    (system_insights cexStoreBlocked 0).approaching = [] := by
  refine ⟨List.mem_cons_self _ _, rfl, by decide, by decide, rfl⟩

/-- C8 (amended): the approaching list holds exactly the ids of parts whose status
is active (assigned/in_progress/review — hence in particular not completed,
but also excluding blocked), whose deadline is set, and whose deadline minus
`now` is under 48 hours, overdue deadlines included. -/
theorem system_insights_approaching_iff (s : Store) (now : Int) (pid : String) :
    pid ∈ (system_insights s now).approaching ↔
      ∃ p ∈ s.parts, p.id = pid ∧ p.status ∈ activeStatuses ∧
        ∃ dl, p.deadline = some dl ∧ dl - now < 172800 := by
  unfold system_insights
  simp only [List.mem_map, List.mem_filter]
  constructor
  · rintro ⟨p, ⟨⟨hmem, hact⟩, hcond⟩, hid⟩
    refine ⟨p, hmem, hid, List.elem_iff.mp hact, ?_⟩
    cases hdl : p.deadline with
    | none =>
      rw [hdl] at hcond
      exact absurd hcond (by simp)
    | some dl =>
      rw [hdl] at hcond
      have := (Bool.and_eq_true _ _).mp hcond
      exact ⟨dl, rfl, of_decide_eq_true this.1⟩
  · rintro ⟨p, hmem, hid, hst, dl, hdl, hlt⟩
    have hne : p.status ≠ "completed" := by
      have h3 : p.status = "assigned" ∨ p.status = "in_progress" ∨
          p.status = "review" := by
        simpa [activeStatuses] using hst
      rcases h3 with h | h | h <;> rw [h] <;> decide
    refine ⟨p, ⟨⟨hmem, List.elem_iff.mpr hst⟩, ?_⟩, hid⟩
    rw [hdl]
    show (decide (dl - now < 172800) && decide (p.status ≠ "completed")) = true
    rw [decide_eq_true hlt, decide_eq_true hne]
    rfl

end PM
